import Mathlib

set_option maxHeartbeats 1000000

/-!
Verification of the SVG embedding module of a word-processing document
library.  The module registers an SVG image together with a PNG fallback
as document assets (AddImageSVG), builds an mc:AlternateContent inline
drawing offering the SVG to capable readers and the PNG to older ones
(AddDrawingInlineSVG), and provides hand-written XML codecs for the
foreign-namespace elements involved (SVGBlip, FallbackDrawing,
AlternateContentSVGRun).

The development first establishes injectivity of the decimal rendering
of natural numbers (`Nat.repr`), which underlies the distinctness of
relationship identifiers and sequential media target names.
-/

/-! ### Decimal numeral facts -/

theorem asString_inj {l₁ l₂ : List Char} (h : l₁.asString = l₂.asString) : l₁ = l₂ := by
  simpa [List.asString] using congrArg String.data h

theorem digitChar_inj_lt {a b : Nat} (ha : a < 10) (hb : b < 10)
    (h : Nat.digitChar a = Nat.digitChar b) : a = b := by
  have key : ∀ x y : Fin 10, Nat.digitChar x.val = Nat.digitChar y.val → x = y := by decide
  exact congrArg Fin.val (key ⟨a, ha⟩ ⟨b, hb⟩ h)

theorem toDigitsCore_eq_digits (b : Nat) (hb : 1 < b) :
    ∀ (f n : Nat) (acc : List Char), 0 < n → n < f →
      Nat.toDigitsCore b f n acc = ((Nat.digits b n).map Nat.digitChar).reverse ++ acc := by
  intro f
  induction f with
  | zero => intro n acc hn hf; exact absurd hf (Nat.not_lt_zero n)
  | succ f ih =>
    intro n acc hn hf
    by_cases h0 : n / b = 0
    · have hdig : Nat.digits b n = [n % b] := by
        rw [Nat.digits_def' hb hn, h0, Nat.digits_zero]
      simp only [Nat.toDigitsCore, h0, if_true, hdig, List.map_cons, List.map_nil,
        List.reverse_cons, List.reverse_nil, List.nil_append, List.singleton_append]
    · have hpos : 0 < n / b := Nat.pos_of_ne_zero h0
      have hlt : n / b < f :=
        Nat.lt_of_lt_of_le (Nat.div_lt_self hn hb) (Nat.lt_succ_iff.mp hf)
      have step : Nat.toDigitsCore b (f + 1) n acc =
          Nat.toDigitsCore b f (n / b) (Nat.digitChar (n % b) :: acc) := by
        simp only [Nat.toDigitsCore, h0, if_false]
      rw [step, ih (n / b) (Nat.digitChar (n % b) :: acc) hpos hlt,
        Nat.digits_def' hb hn]
      simp [List.append_assoc]

theorem toDigits_eq_digits {n : Nat} (hn : 0 < n) :
    Nat.toDigits 10 n = ((Nat.digits 10 n).map Nat.digitChar).reverse := by
  have := toDigitsCore_eq_digits 10 (by norm_num) (n + 1) n [] hn (Nat.lt_succ_self n)
  simpa [Nat.toDigits] using this

theorem map_digitChar_inj :
    ∀ (l₁ l₂ : List Nat), (∀ x ∈ l₁, x < 10) → (∀ x ∈ l₂, x < 10) →
      l₁.map Nat.digitChar = l₂.map Nat.digitChar → l₁ = l₂ := by
  intro l₁
  induction l₁ with
  | nil =>
    intro l₂ _ _ h
    cases l₂ with
    | nil => rfl
    | cons b t => simp at h
  | cons a t ih =>
    intro l₂ h₁ h₂ h
    cases l₂ with
    | nil => simp at h
    | cons b t₂ =>
      simp only [List.map_cons, List.cons.injEq] at h
      have hab : a = b :=
        digitChar_inj_lt (h₁ a (by simp)) (h₂ b (by simp)) h.1
      have ht : t = t₂ :=
        ih t₂ (fun x hx => h₁ x (by simp [hx])) (fun x hx => h₂ x (by simp [hx])) h.2
      rw [hab, ht]

theorem nat_repr_inj : ∀ {m n : Nat}, Nat.repr m = Nat.repr n → m = n := by
  have hz : ∀ n : Nat, 0 < n → Nat.toDigits 10 0 ≠ Nat.toDigits 10 n := by
    intro n hn hEq
    have h0 : Nat.toDigits 10 0 = ['0'] := rfl
    have hEq' : ((Nat.digits 10 n).map Nat.digitChar).reverse = ['0'] := by
      rw [← toDigits_eq_digits hn, ← hEq, h0]
    have hmap : (Nat.digits 10 n).map Nat.digitChar = ['0'] := by
      have := congrArg List.reverse hEq'
      simpa using this
    have hdig : Nat.digits 10 n = [0] := by
      have h09 : (0 : Nat) < 10 := by norm_num
      refine map_digitChar_inj (Nat.digits 10 n) [0]
        (fun x hx => Nat.digits_lt_base (by norm_num) hx) ?_ ?_
      · intro x hx; simp at hx; omega
      · simpa [Nat.digitChar] using hmap
    have : n = 0 := by
      have := Nat.ofDigits_digits 10 n
      rw [hdig] at this
      simpa [Nat.ofDigits] using this.symm
    omega
  intro m n h
  have hd : Nat.toDigits 10 m = Nat.toDigits 10 n := by
    apply asString_inj
    simpa [Nat.repr] using h
  rcases Nat.eq_zero_or_pos m with hm | hm
  · rcases Nat.eq_zero_or_pos n with hn | hn
    · omega
    · subst hm; exact absurd hd (hz n hn)
  · rcases Nat.eq_zero_or_pos n with hn | hn
    · subst hn; exact absurd hd.symm (hz m hm)
    · rw [toDigits_eq_digits hm, toDigits_eq_digits hn] at hd
      have hmap := List.reverse_injective hd
      have hdig : Nat.digits 10 m = Nat.digits 10 n :=
        map_digitChar_inj _ _
          (fun x hx => Nat.digits_lt_base (by norm_num) hx)
          (fun x hx => Nat.digits_lt_base (by norm_num) hx) hmap
      have := congrArg (Nat.ofDigits 10) hdig
      simpa [Nat.ofDigits_digits] using this

/-! ### XML model

Shallow embedding of the slice of Go's encoding/xml that the hand-written
codecs use.  An attribute name is a (namespace, local) pair as the decoder
reports it; the encoder in this code base writes attribute names as plain
text with the colon inside the local part (for example "r:embed"), and the
decoder splits such a written name at its first colon into a namespace
part and a local part.  Serialized output is modelled as a list of tokens:
start tags with their attributes, end tags, and opaque bodies emitted for
schema-generated subtrees by the ambient serializer.
-/

structure XmlName where
  space : String
  localName : String
deriving DecidableEq, Repr

structure XmlAttr where
  name : XmlName
  value : String
deriving DecidableEq, Repr

/-- Split a character list at its first colon, as Go's decoder splits a
qualified name into its namespace part and its local part. -/
def splitAtColon : List Char → Option (List Char × List Char)
  | [] => none
  | c :: cs =>
    if c = ':' then some ([], cs)
    else
      match splitAtColon cs with
      | some (p, l) => some (c :: p, l)
      | none => none

/-- The decoder's view of a written name: "r:embed" is reported with
namespace part "r" and local part "embed"; a name without a colon keeps an
empty namespace part.  (The decoder would further resolve a bound
namespace part to its URI; the codecs under verification only ever
inspect the local part, which resolution does not change.) -/
def splitQName (s : String) : XmlName :=
  match splitAtColon s.data with
  | some (p, l) => ⟨p.asString, l.asString⟩
  | none => ⟨"", s⟩

/-- Re-reading a written attribute: the written name text is carried in the
local part and the decoder splits it. -/
def decodeAttr (a : XmlAttr) : XmlAttr :=
  ⟨splitQName a.name.localName, a.value⟩

/-! ### dml/svgblip.go -/

/-- SVGBlipURI is the OOXML extension URI for SVG blip support. -/
def SVGBlipURI : String := "\x7b96DAC541-7B7A-43D3-8B79-37D633B846F1\x7d"

/-- SVGBlipNS is the namespace for the asvg:svgBlip element. -/
def SVGBlipNS : String := "http://schemas.microsoft.com/office/drawing/2016/SVG/main"

/-- SVGBlip represents an asvg:svgBlip element referencing an SVG image
inside a CT_Blip's ExtLst. -/
structure SVGBlip where
  EmbedAttr : String
deriving DecidableEq, Repr

/-- The attributes written by SVGBlip.MarshalXML:
xmlns:asvg declaring the namespace, then r:embed carrying the token. -/
def SVGBlip.marshalAttrs (s : SVGBlip) : List XmlAttr :=
  [⟨⟨"", "xmlns:asvg"⟩, SVGBlipNS⟩, ⟨⟨"", "r:embed"⟩, s.EmbedAttr⟩]

/-- SVGBlip.UnmarshalXML over the start element's attributes: every
attribute whose local name is "embed" overwrites EmbedAttr (so the last
one wins); the element's content is then skipped. -/
def SVGBlip.unmarshalXML (s : SVGBlip) (attrs : List XmlAttr) : SVGBlip :=
  attrs.foldl
    (fun acc attr =>
      if attr.name.localName = "embed" then { acc with EmbedAttr := attr.value } else acc)
    s

/-! ### Drawing data model

The fields of the generated schema types (wml / dml / picture packages)
that AddDrawingInlineSVG sets.  Pointer-valued fields that the code may
leave unset are Options.
-/

structure CT_OfficeArtExtension where
  UriAttr : String
  Any : List SVGBlip
deriving DecidableEq, Repr

structure CT_Blip where
  EmbedAttr : Option String
  ExtLst : Option (List CT_OfficeArtExtension)
deriving DecidableEq, Repr

structure CT_Transform2D where
  offX : Int
  offY : Int
  extCx : Int
  extCy : Int
deriving DecidableEq, Repr

structure CT_ShapeProperties where
  Xfrm : CT_Transform2D
  PrstGeom : String
deriving DecidableEq, Repr

structure Pic where
  NvPrIdAttr : Nat
  Blip : CT_Blip
  SpPr : CT_ShapeProperties
deriving DecidableEq, Repr

structure WdInline where
  DistTAttr : Nat
  DistLAttr : Nat
  DistBAttr : Nat
  DistRAttr : Nat
  ExtentCxAttr : Int
  ExtentCyAttr : Int
  DocPrIdAttr : Nat
  GraphicDataUriAttr : String
  pic : Pic
deriving DecidableEq, Repr

/-- CT_Drawing: list of its inline drawing alternatives. -/
def CT_Drawing := List WdInline
deriving DecidableEq, Repr

structure AC_ChoiceRun where
  Requires : String
  Drawing : CT_Drawing
deriving DecidableEq, Repr

/-- FallbackDrawing wraps a CT_Drawing for use as mc:Fallback content. -/
structure FallbackDrawing where
  Drawing : Option CT_Drawing
deriving DecidableEq, Repr

/-- AlternateContentSVGRun is an SVG-aware version of AlternateContentRun
that includes the asvg namespace declaration required for SVG embedding. -/
structure AlternateContentSVGRun where
  Choice : Option AC_ChoiceRun
  Fallback : Option FallbackDrawing
deriving DecidableEq, Repr

/-! ### wml/svg_helpers.go serialization -/

/-- One unit of serialized XML output: a start tag with attributes, an end
tag, or the body a schema-generated subtree contributes.  A body token is
modelled from the spec: the branch content is emitted by the ambient
document-tree element serializer (generated code outside this module), so
it appears here as one opaque unit keyed by the drawing it serializes. -/
inductive XmlUnit where
  | tstart (name : String) (attrs : List XmlAttr)
  | tclose (name : String)
  | body (drawing : CT_Drawing)
deriving DecidableEq, Repr

/-- FallbackDrawing.MarshalXML: mc:Fallback wrapping w:drawing (emitted via
EncodeElement, which writes the start tag, the drawing content, and the
end tag) when the drawing is present. -/
def FallbackDrawing.marshalXML (f : FallbackDrawing) : List XmlUnit :=
  [XmlUnit.tstart "mc:Fallback" []]
    ++ (match f.Drawing with
        | some d => [XmlUnit.tstart "w:drawing" [], XmlUnit.body d, XmlUnit.tclose "w:drawing"]
        | none => [])
    ++ [XmlUnit.tclose "mc:Fallback"]

/-- The fixed attribute set AlternateContentSVGRun.MarshalXML places on the
mc:AlternateContent start tag. -/
def acSVGRunAttrs : List XmlAttr :=
  [⟨⟨"", "xmlns:wpg"⟩, "http://schemas.microsoft.com/office/word/2010/wordprocessingGroup"⟩,
   ⟨⟨"", "xmlns:mc"⟩, "http://schemas.openxmlformats.org/markup-compatibility/2006"⟩,
   ⟨⟨"", "xmlns:w"⟩, "http://schemas.openxmlformats.org/wordprocessingml/2006/main"⟩,
   ⟨⟨"", "xmlns:wp"⟩, "http://schemas.openxmlformats.org/drawingml/2006/wordprocessingDrawing"⟩,
   ⟨⟨"", "xmlns:wp14"⟩, "http://schemas.microsoft.com/office/word/2010/wordprocessingDrawing"⟩,
   ⟨⟨"", "xmlns:a"⟩, "http://schemas.openxmlformats.org/drawingml/2006/main"⟩,
   ⟨⟨"", "xmlns:pic"⟩, "http://schemas.openxmlformats.org/drawingml/2006/picture"⟩,
   ⟨⟨"", "xmlns:r"⟩, "http://schemas.openxmlformats.org/officeDocument/2006/relationships"⟩,
   ⟨⟨"", "xmlns:wps"⟩, "http://schemas.microsoft.com/office/word/2010/wordprocessingShape"⟩,
   ⟨⟨"", "xmlns:v"⟩, "urn:schemas-microsoft-com:vml"⟩,
   ⟨⟨"", "xmlns:w14"⟩, "http://schemas.microsoft.com/office/word/2010/wordml"⟩,
   ⟨⟨"", "xmlns:o"⟩, "urn:schemas-microsoft-com:office:office"⟩,
   ⟨⟨"", "xmlns:w10"⟩, "urn:schemas-microsoft-com:office:word"⟩,
   ⟨⟨"", "xmlns:asvg"⟩, "http://schemas.microsoft.com/office/drawing/2016/SVG/main"⟩,
   ⟨⟨"", "mc:Ignorable"⟩, "wp14 w14 w10 asvg"⟩]

/-- AlternateContentSVGRun.MarshalXML: when the caller supplies an empty
start name (as CT_R's Extra branch does) the fixed mc:AlternateContent
name is used.  The mc:Choice child carries Requires="asvg" and is emitted
via EncodeElement; its interior (the choice drawing, serialized by the
generated AC_ChoiceRun marshaller) is one body unit, modelled from the
spec.  The fallback child is emitted by FallbackDrawing.MarshalXML. -/
def AlternateContentSVGRun.marshalXML (a : AlternateContentSVGRun)
    (startLocal : String) : List XmlUnit :=
  let name := if startLocal = "" then "mc:AlternateContent" else startLocal
  [XmlUnit.tstart name acSVGRunAttrs]
    ++ (match a.Choice with
        | some c =>
          [XmlUnit.tstart "mc:Choice" [⟨⟨"", "Requires"⟩, "asvg"⟩],
           XmlUnit.body c.Drawing,
           XmlUnit.tclose "mc:Choice"]
        | none => [])
    ++ (match a.Fallback with
        | some f => f.marshalXML
        | none => [])
    ++ [XmlUnit.tclose name]

/-- Number of start tags with a given name in a token list. -/
def startCount (nm : String) (us : List XmlUnit) : Nat :=
  (us.filter fun u =>
    match u with
    | XmlUnit.tstart n _ => n == nm
    | _ => false).length

/-! ### Document model

AddImageSVG lives in the document package; the collaborators it calls
(common.Image / common.ImageRef, the relationship set, the content-type
table, Document.AddImage, tempstorage) are part of this repository but
outside the sources under verification, so they are modelled from the
spec where marked.
-/

/-- common.Image: raw bytes with declared pixel size, format tag and an
optional side-storage path. -/
structure Image where
  sizeX : Int
  sizeY : Int
  format : String
  data : List Nat
  path : String
deriving DecidableEq, Repr

/-- common.ImageRef: an asset handle with pixel size, format tag,
relationship id (empty until registration links the asset) and media
target. -/
structure ImageRef where
  sizeX : Int
  sizeY : Int
  format : String
  relID : String
  target : String
deriving DecidableEq, Repr

/-- Modelled from the spec: the document's relationship set allocates a
unique cross-reference token per added relationship; tokens are the
string rId followed by the 1-based decimal position, never reused. -/
structure Relationships where
  ids : List String
deriving DecidableEq, Repr

/-- The token allocated for the relationship at 0-based position n. -/
def relIdFor (n : Nat) : String := "rId" ++ Nat.repr (n + 1)

/-- Modelled from the spec: AddRelationship appends a relationship for the
given target and type and returns its freshly allocated token. -/
def Relationships.addRelationship (r : Relationships) (targ typ : String) :
    Relationships × String :=
  let _ := targ
  let _ := typ
  let id := relIdFor r.ids.length
  (⟨r.ids ++ [id]⟩, id)

/-- The content-type table: default entries mapping a format tag to a
media type. -/
structure ContentTypes where
  defaults : List (String × String)
deriving DecidableEq, Repr

/-- Modelled from the spec: EnsureDefault is idempotent — if an entry for
the format tag exists the table is unchanged, otherwise one entry is
appended. -/
def ContentTypes.ensureDefault (ct : ContentTypes) (ext mime : String) : ContentTypes :=
  if ct.defaults.any fun p => p.1 == ext then ct
  else ⟨ct.defaults ++ [(ext, mime)]⟩

/-- The slice of Document state the module reads and writes: asset list,
relationship set and content-type table. -/
structure Document where
  images : List ImageRef
  rels : Relationships
  contentTypes : ContentTypes
deriving DecidableEq, Repr

/-- Modelled from the spec: Document.AddImage, the generic asset-store
registration AddImageSVG uses for the PNG.  It validates the image before
any state mutation (so a failed call leaves the document unchanged),
stages a path-backed payload through side storage (which can fail), then
appends the handle, names its media target by the 1-based position in the
asset list, links it into the relationship set and ensures a content-type
default entry for its format.  storageOk is the oracle for side-storage
success. -/
def Document.addImage (storageOk : String → Bool) (d : Document) (i : Image) :
    Document × Except String ImageRef :=
  if i.data.isEmpty ∧ i.path = "" then
    (d, Except.error "image must have data or a path")
  else if i.format = "" then
    (d, Except.error "image must have a valid format")
  else if i.sizeX = 0 ∨ i.sizeY = 0 then
    (d, Except.error "image must have a valid size")
  else if i.path ≠ "" ∧ storageOk i.path = false then
    (d, Except.error "error adding image to temporary storage")
  else
    let target := "media/image" ++ Nat.repr (d.images.length + 1) ++ "." ++ i.format
    let (rels, relId) := d.rels.addRelationship target "image"
    let ref : ImageRef :=
      { sizeX := i.sizeX, sizeY := i.sizeY, format := i.format,
        relID := relId, target := target }
    ({ images := d.images ++ [ref], rels := rels,
       contentTypes := d.contentTypes.ensureDefault i.format ("image/" ++ i.format) },
     Except.ok ref)

/-- AddImageSVG registers an SVG image and its PNG fallback with the
document.  Validation first (empty payloads, non-positive dimensions),
then the PNG goes through the generic asset store, then the SVG is
registered by hand: side-storage staging would apply only to a path-backed
payload (the constructed SVG image has no path), the handle is appended,
its media target named by position, a relationship allocated, the
image/svg+xml default ensured, and the returned handle carries the token
and the target. -/
def Document.addImageSVG (storageOk : String → Bool) (d : Document)
    (svgData pngFallback : List Nat) (width height : Int) :
    Document × Except String (ImageRef × ImageRef) :=
  if svgData.isEmpty ∨ pngFallback.isEmpty then
    (d, Except.error "both SVG and PNG data are required")
  else if width ≤ 0 ∨ height ≤ 0 then
    (d, Except.error "width and height must be positive")
  else
    let pngImage : Image :=
      { sizeX := width, sizeY := height, format := "png", data := pngFallback, path := "" }
    match d.addImage storageOk pngImage with
    | (d₁, Except.error e) => (d₁, Except.error ("adding PNG image: " ++ e))
    | (d₁, Except.ok pngRef) =>
      let svgImage : Image :=
        { sizeX := width, sizeY := height, format := "svg", data := svgData, path := "" }
      if svgImage.path ≠ "" ∧ storageOk svgImage.path = false then
        (d₁, Except.error "error adding image to temporary storage")
      else
        let target := "media/image" ++ Nat.repr (d₁.images.length + 1) ++ "." ++ svgImage.format
        let (rels, relId) := d₁.rels.addRelationship target "image"
        let svgRef : ImageRef :=
          { sizeX := width, sizeY := height, format := "svg",
            relID := relId, target := target }
        ({ images := d₁.images ++ [svgRef], rels := rels,
           contentTypes := d₁.contentTypes.ensureDefault "svg" "image/svg+xml" },
         Except.ok (pngRef, svgRef))

/-! ### AddDrawingInlineSVG -/

/-- Modelled from the spec: measurement constants (measurement package).
Pixel72 is the EMU length of one pixel at 72 dpi and Point the EMU length
of one point; both are 12700 EMU, and EMU itself is the unit 1.  The
source computes int64(float64(px*Pixel72)/EMU); division by EMU = 1 is
exact, so the conversion is px * Pixel72. -/
def measurementPixel72 : Int := 12700

/-- Modelled from the spec: measurement.Point, 12700 EMU. -/
def measurementPoint : Int := 12700

/-- The run owning the parallel extra-content list AddDrawingInlineSVG
appends to. -/
structure Run where
  Extra : List AlternateContentSVGRun
deriving DecidableEq, Repr

/-- AddDrawingInlineSVG builds the Choice drawing (PNG blip plus SVG
extension in ExtLst) and the Fallback drawing (PNG only), wraps them in an
AlternateContentSVGRun and appends it to the run's Extra slice.  It fails,
without touching the run, when either handle's relationship id is empty.
The two rand.Uint32 draws are passed as r₁ and r₂; masking a draw with
0x7FFFFFFF depends only on its low 31 bits, so passing the unreduced
naturals is equivalent to first truncating them to 32 bits. -/
def Run.addDrawingInlineSVG (r : Run) (svgImg pngImg : ImageRef) (r₁ r₂ : Nat) :
    Run × Except String WdInline :=
  let pngRelID := pngImg.relID
  let svgRelID := svgImg.relID
  if pngRelID = "" then
    (r, Except.error "couldn't find reference to PNG image within document relations")
  else if svgRelID = "" then
    (r, Except.error "couldn't find reference to SVG image within document relations")
  else
    let docPrID := 0x7FFFFFFF &&& r₁
    let choicePic : Pic :=
      { NvPrIdAttr := docPrID,
        Blip :=
          { EmbedAttr := some pngRelID,
            ExtLst := some [{ UriAttr := SVGBlipURI, Any := [{ EmbedAttr := svgRelID }] }] },
        SpPr :=
          { Xfrm :=
              { offX := 0, offY := 0,
                extCx := pngImg.sizeX * measurementPoint,
                extCy := pngImg.sizeY * measurementPoint },
            PrstGeom := "rect" } }
    let choiceInline : WdInline :=
      { DistTAttr := 0, DistLAttr := 0, DistBAttr := 0, DistRAttr := 0,
        ExtentCxAttr := pngImg.sizeX * measurementPixel72,
        ExtentCyAttr := pngImg.sizeY * measurementPixel72,
        DocPrIdAttr := docPrID,
        GraphicDataUriAttr := "http://schemas.openxmlformats.org/drawingml/2006/picture",
        pic := choicePic }
    let fallbackID := 0x7FFFFFFF &&& r₂
    let fallbackPic : Pic :=
      { NvPrIdAttr := fallbackID,
        Blip := { EmbedAttr := some pngRelID, ExtLst := none },
        SpPr :=
          { Xfrm :=
              { offX := 0, offY := 0,
                extCx := choicePic.SpPr.Xfrm.extCx,
                extCy := choicePic.SpPr.Xfrm.extCy },
            PrstGeom := "rect" } }
    let fallbackInline : WdInline :=
      { DistTAttr := 0, DistLAttr := 0, DistBAttr := 0, DistRAttr := 0,
        ExtentCxAttr := choiceInline.ExtentCxAttr,
        ExtentCyAttr := choiceInline.ExtentCyAttr,
        DocPrIdAttr := fallbackID,
        GraphicDataUriAttr := "http://schemas.openxmlformats.org/drawingml/2006/picture",
        pic := fallbackPic }
    let choice : AC_ChoiceRun := { Requires := "asvg", Drawing := [choiceInline] }
    let acRun : AlternateContentSVGRun :=
      { Choice := some choice, Fallback := some { Drawing := some [fallbackInline] } }
    ({ Extra := r.Extra ++ [acRun] }, Except.ok choiceInline)

/-! ### Codec lemmas -/

/-- The fold in SVGBlip.UnmarshalXML keeps the value of the last attribute
whose local name is embed, and the initial value when there is none. -/
theorem unmarshalXML_embed_eq (attrs : List XmlAttr) :
    ∀ init : SVGBlip,
      (SVGBlip.unmarshalXML init attrs).EmbedAttr =
        ((attrs.filter fun a => a.name.localName == "embed").map XmlAttr.value).getLastD
          init.EmbedAttr := by
  induction attrs with
  | nil => intro init; rfl
  | cons a t ih =>
    intro init
    by_cases h : a.name.localName = "embed"
    · have hstep : SVGBlip.unmarshalXML init (a :: t) =
          SVGBlip.unmarshalXML { init with EmbedAttr := a.value } t := by
        simp [SVGBlip.unmarshalXML, h]
      rw [hstep, ih]
      rw [List.filter_cons_of_pos (by simp [h]), List.map_cons, List.getLastD_cons]
    · have hstep : SVGBlip.unmarshalXML init (a :: t) = SVGBlip.unmarshalXML init t := by
        simp [SVGBlip.unmarshalXML, h]
      rw [hstep, ih]
      rw [List.filter_cons_of_neg (by simp [h])]

/-- C10: for every XML start element, SVGBlip.UnmarshalXML sets EmbedAttr
to the value of the last attribute whose local name is "embed", matched by
local name only (so any, or no, namespace part is accepted); when no such
attribute is present, EmbedAttr is left as the empty string.  The decoded
content is skipped, so the result depends only on the attribute list. -/
theorem C10_unmarshal_semantics :
    (∀ attrs : List XmlAttr,
      (SVGBlip.unmarshalXML ⟨""⟩ attrs).EmbedAttr =
        ((attrs.filter fun a => a.name.localName == "embed").map XmlAttr.value).getLastD "")
    ∧ (∀ ns v : String, (SVGBlip.unmarshalXML ⟨""⟩ [⟨⟨ns, "embed"⟩, v⟩]).EmbedAttr = v) := by
  constructor
  · intro attrs
    exact unmarshalXML_embed_eq attrs ⟨""⟩
  · intro ns v
    simp [SVGBlip.unmarshalXML]

/-- C4: marshalling an SVGBlip with token t and unmarshalling the result
(as the decoder reports the written attributes) recovers t, for any order
of the attributes in the input element. -/
theorem C4_roundtrip_embed (t : String) (l : List XmlAttr)
    (hperm : l.Perm ((SVGBlip.marshalAttrs ⟨t⟩).map decodeAttr)) :
    (SVGBlip.unmarshalXML ⟨""⟩ l).EmbedAttr = t := by
  have h1 : splitQName "xmlns:asvg" = ⟨"xmlns", "asvg"⟩ := by decide
  have h2 : splitQName "r:embed" = ⟨"r", "embed"⟩ := by decide
  have hdec : (SVGBlip.marshalAttrs ⟨t⟩).map decodeAttr =
      [⟨⟨"xmlns", "asvg"⟩, SVGBlipNS⟩, ⟨⟨"r", "embed"⟩, t⟩] := by
    simp [SVGBlip.marshalAttrs, decodeAttr, h1, h2]
  have hfil : ([⟨⟨"xmlns", "asvg"⟩, SVGBlipNS⟩, ⟨⟨"r", "embed"⟩, t⟩] :
        List XmlAttr).filter (fun a => a.name.localName == "embed") =
      [⟨⟨"r", "embed"⟩, t⟩] := by
    simp [List.filter]
  have hl : l.filter (fun a => a.name.localName == "embed") = [⟨⟨"r", "embed"⟩, t⟩] := by
    have hp := hperm.filter (fun a => a.name.localName == "embed")
    rw [hdec, hfil] at hp
    exact List.perm_singleton.mp hp
  rw [unmarshalXML_embed_eq l ⟨""⟩, hl]
  rfl

/-- Witness for C4 at token rId7 with the two decoded attributes in
reversed order. -/
theorem C4_roundtrip_embed_witness :
    (SVGBlip.unmarshalXML ⟨""⟩
        [⟨⟨"r", "embed"⟩, "rId7"⟩, ⟨⟨"xmlns", "asvg"⟩, SVGBlipNS⟩]).EmbedAttr = "rId7" :=
  C4_roundtrip_embed "rId7" _ (by
    have hdec : (SVGBlip.marshalAttrs ⟨"rId7"⟩).map decodeAttr =
        [⟨⟨"xmlns", "asvg"⟩, SVGBlipNS⟩, ⟨⟨"r", "embed"⟩, "rId7"⟩] := by decide
    rw [hdec]
    exact List.Perm.swap _ _ _)

/-- C3: with non-nil Choice and Fallback, the wrapper serialization is one
mc:AlternateContent element with the fixed namespace declarations
(including asvg) and the mc:Ignorable list, containing exactly one
mc:Choice child with Requires="asvg" wrapping the preferred drawing,
followed by exactly one mc:Fallback child wrapping the fallback drawing. -/
theorem C3_wrapper_serialization (a : AlternateContentSVGRun) (c : AC_ChoiceRun)
    (f : FallbackDrawing) (hc : a.Choice = some c) (hf : a.Fallback = some f) :
    a.marshalXML "" =
      [XmlUnit.tstart "mc:AlternateContent" acSVGRunAttrs,
       XmlUnit.tstart "mc:Choice" [⟨⟨"", "Requires"⟩, "asvg"⟩],
       XmlUnit.body c.Drawing,
       XmlUnit.tclose "mc:Choice"]
        ++ f.marshalXML
        ++ [XmlUnit.tclose "mc:AlternateContent"]
    ∧ ⟨⟨"", "xmlns:asvg"⟩, SVGBlipNS⟩ ∈ acSVGRunAttrs
    ∧ ⟨⟨"", "mc:Ignorable"⟩, "wp14 w14 w10 asvg"⟩ ∈ acSVGRunAttrs
    ∧ (∀ d, f.Drawing = some d →
        f.marshalXML =
          [XmlUnit.tstart "mc:Fallback" [], XmlUnit.tstart "w:drawing" [],
           XmlUnit.body d, XmlUnit.tclose "w:drawing", XmlUnit.tclose "mc:Fallback"])
    ∧ startCount "mc:Choice" (a.marshalXML "") = 1
    ∧ startCount "mc:Fallback" (a.marshalXML "") = 1
    ∧ startCount "mc:AlternateContent" (a.marshalXML "") = 1 := by
  obtain ⟨fd⟩ := f
  have hmain : a.marshalXML "" =
      [XmlUnit.tstart "mc:AlternateContent" acSVGRunAttrs,
       XmlUnit.tstart "mc:Choice" [⟨⟨"", "Requires"⟩, "asvg"⟩],
       XmlUnit.body c.Drawing,
       XmlUnit.tclose "mc:Choice"]
        ++ FallbackDrawing.marshalXML ⟨fd⟩
        ++ [XmlUnit.tclose "mc:AlternateContent"] := by
    simp [AlternateContentSVGRun.marshalXML, hc, hf]
  refine ⟨hmain, by simp [acSVGRunAttrs, SVGBlipNS], by simp [acSVGRunAttrs], ?_, ?_, ?_, ?_⟩
  · intro d hd
    simp only at hd
    simp [FallbackDrawing.marshalXML, hd]
  · rw [hmain]; cases fd <;> rfl
  · rw [hmain]; cases fd <;> rfl
  · rw [hmain]; cases fd <;> rfl

/-- A concrete wrapper with present Choice and Fallback branches. -/
def acExample : AlternateContentSVGRun := ⟨some ⟨"asvg", []⟩, some ⟨some []⟩⟩

/-- Witness for C3 at a concrete wrapper. -/
theorem C3_wrapper_serialization_witness :
    startCount "mc:Choice" (acExample.marshalXML "") = 1
    ∧ startCount "mc:Fallback" (acExample.marshalXML "") = 1
    ∧ startCount "mc:AlternateContent" (acExample.marshalXML "") = 1 :=
  ⟨(C3_wrapper_serialization acExample ⟨"asvg", []⟩ ⟨some []⟩ rfl rfl).2.2.2.2.1,
   (C3_wrapper_serialization acExample ⟨"asvg", []⟩ ⟨some []⟩ rfl rfl).2.2.2.2.2.1,
   (C3_wrapper_serialization acExample ⟨"asvg", []⟩ ⟨some []⟩ rfl rfl).2.2.2.2.2.2⟩

/-! ### AddDrawingInlineSVG claims -/

/-- A registered PNG handle used by witnesses. -/
def exPngRef : ImageRef := ⟨200, 100, "png", "rId4", "media/image1.png"⟩

/-- A registered SVG handle used by witnesses. -/
def exSvgRef : ImageRef := ⟨200, 100, "svg", "rId5", "media/image2.svg"⟩

/-- An empty run used by witnesses. -/
def exRun : Run := ⟨[]⟩

/-- C1: on success the appended fragment's Choice picture embeds the PNG
relationship id and carries an extension list with exactly one extension,
whose URI is SVGBlipURI and whose payload references the SVG relationship
id, while the Fallback picture embeds only the PNG relationship id and has
no extension list, with the same shape geometry and preset in both
branches. -/
theorem C1_choice_fallback_shape (r : Run) (svgImg pngImg : ImageRef) (r₁ r₂ : Nat)
    (hp : pngImg.relID ≠ "") (hs : svgImg.relID ≠ "") :
    ∃ ac cIn fIn,
      (r.addDrawingInlineSVG svgImg pngImg r₁ r₂).1.Extra = r.Extra ++ [ac]
      ∧ ac.Choice = some { Requires := "asvg", Drawing := [cIn] }
      ∧ ac.Fallback = some { Drawing := some [fIn] }
      ∧ cIn.pic.Blip.EmbedAttr = some pngImg.relID
      ∧ cIn.pic.Blip.ExtLst =
          some [{ UriAttr := SVGBlipURI, Any := [{ EmbedAttr := svgImg.relID }] }]
      ∧ fIn.pic.Blip.EmbedAttr = some pngImg.relID
      ∧ fIn.pic.Blip.ExtLst = none
      ∧ fIn.pic.SpPr = cIn.pic.SpPr
      ∧ cIn.pic.SpPr.PrstGeom = "rect" := by
  simp only [Run.addDrawingInlineSVG, if_neg hp, if_neg hs]
  exact ⟨_, _, _, rfl, rfl, rfl, rfl, rfl, rfl, rfl, rfl, rfl⟩

/-- Witness for C1 at concrete handles. -/
theorem C1_choice_fallback_shape_witness :
    ∃ ac cIn fIn,
      (exRun.addDrawingInlineSVG exSvgRef exPngRef 3 4).1.Extra = exRun.Extra ++ [ac]
      ∧ ac.Choice = some { Requires := "asvg", Drawing := [cIn] }
      ∧ ac.Fallback = some { Drawing := some [fIn] }
      ∧ cIn.pic.Blip.EmbedAttr = some exPngRef.relID
      ∧ cIn.pic.Blip.ExtLst =
          some [{ UriAttr := SVGBlipURI, Any := [{ EmbedAttr := exSvgRef.relID }] }]
      ∧ fIn.pic.Blip.EmbedAttr = some exPngRef.relID
      ∧ fIn.pic.Blip.ExtLst = none
      ∧ fIn.pic.SpPr = cIn.pic.SpPr
      ∧ cIn.pic.SpPr.PrstGeom = "rect" :=
  C1_choice_fallback_shape exRun exSvgRef exPngRef 3 4 (by decide) (by decide)

/-- C2: on success both branches report identical inline extents and
identical shape-transform extents, and the extents are computed from the
PNG handle's pixel size by the fixed scale factors (Pixel72 per pixel for
the inline extent, Point per pixel for the transform extent). -/
theorem C2_extents (r : Run) (svgImg pngImg : ImageRef) (r₁ r₂ : Nat)
    (hp : pngImg.relID ≠ "") (hs : svgImg.relID ≠ "") :
    ∃ ac cIn fIn,
      (r.addDrawingInlineSVG svgImg pngImg r₁ r₂).1.Extra = r.Extra ++ [ac]
      ∧ ac.Choice = some { Requires := "asvg", Drawing := [cIn] }
      ∧ ac.Fallback = some { Drawing := some [fIn] }
      ∧ cIn.ExtentCxAttr = pngImg.sizeX * measurementPixel72
      ∧ cIn.ExtentCyAttr = pngImg.sizeY * measurementPixel72
      ∧ fIn.ExtentCxAttr = cIn.ExtentCxAttr
      ∧ fIn.ExtentCyAttr = cIn.ExtentCyAttr
      ∧ cIn.pic.SpPr.Xfrm.extCx = pngImg.sizeX * measurementPoint
      ∧ cIn.pic.SpPr.Xfrm.extCy = pngImg.sizeY * measurementPoint
      ∧ fIn.pic.SpPr.Xfrm.extCx = cIn.pic.SpPr.Xfrm.extCx
      ∧ fIn.pic.SpPr.Xfrm.extCy = cIn.pic.SpPr.Xfrm.extCy := by
  simp only [Run.addDrawingInlineSVG, if_neg hp, if_neg hs]
  exact ⟨_, _, _, rfl, rfl, rfl, rfl, rfl, rfl, rfl, rfl, rfl, rfl, rfl⟩

/-- Witness for C2 at concrete handles. -/
theorem C2_extents_witness :
    ∃ ac cIn fIn,
      (exRun.addDrawingInlineSVG exSvgRef exPngRef 3 4).1.Extra = exRun.Extra ++ [ac]
      ∧ ac.Choice = some { Requires := "asvg", Drawing := [cIn] }
      ∧ ac.Fallback = some { Drawing := some [fIn] }
      ∧ cIn.ExtentCxAttr = exPngRef.sizeX * measurementPixel72
      ∧ cIn.ExtentCyAttr = exPngRef.sizeY * measurementPixel72
      ∧ fIn.ExtentCxAttr = cIn.ExtentCxAttr
      ∧ fIn.ExtentCyAttr = cIn.ExtentCyAttr
      ∧ cIn.pic.SpPr.Xfrm.extCx = exPngRef.sizeX * measurementPoint
      ∧ cIn.pic.SpPr.Xfrm.extCy = exPngRef.sizeY * measurementPoint
      ∧ fIn.pic.SpPr.Xfrm.extCx = cIn.pic.SpPr.Xfrm.extCx
      ∧ fIn.pic.SpPr.Xfrm.extCy = cIn.pic.SpPr.Xfrm.extCy :=
  C2_extents exRun exSvgRef exPngRef 3 4 (by decide) (by decide)

/-- C7: AddDrawingInlineSVG fails exactly when the PNG or the SVG handle
has an empty relationship id; on failure the run's extra-content list is
untouched, and on success exactly one fragment is appended. -/
theorem C7_reference_error (r : Run) (svgImg pngImg : ImageRef) (r₁ r₂ : Nat) :
    ((∃ e, (r.addDrawingInlineSVG svgImg pngImg r₁ r₂).2 = Except.error e) ↔
      (pngImg.relID = "" ∨ svgImg.relID = ""))
    ∧ ((pngImg.relID = "" ∨ svgImg.relID = "") →
        (r.addDrawingInlineSVG svgImg pngImg r₁ r₂).1 = r)
    ∧ (pngImg.relID ≠ "" → svgImg.relID ≠ "" →
        ∃ ac, (r.addDrawingInlineSVG svgImg pngImg r₁ r₂).1.Extra = r.Extra ++ [ac]) := by
  by_cases hp : pngImg.relID = ""
  · refine ⟨⟨fun _ => Or.inl hp, fun _ => ?_⟩, fun _ => ?_, fun hp' _ => absurd hp hp'⟩
    · exact ⟨"couldn't find reference to PNG image within document relations", by
        simp [Run.addDrawingInlineSVG, hp]⟩
    · simp [Run.addDrawingInlineSVG, hp]
  · by_cases hs : svgImg.relID = ""
    · refine ⟨⟨fun _ => Or.inr hs, fun _ => ?_⟩, fun _ => ?_, fun _ hs' => absurd hs hs'⟩
      · exact ⟨"couldn't find reference to SVG image within document relations", by
          simp [Run.addDrawingInlineSVG, hp, hs]⟩
      · simp [Run.addDrawingInlineSVG, hp, hs]
    · refine ⟨⟨?_, fun h => absurd h (by simp [hp, hs])⟩,
        fun h => absurd h (by simp [hp, hs]), fun _ _ => ?_⟩
      · rintro ⟨e, he⟩
        simp [Run.addDrawingInlineSVG, hp, hs] at he
      · simp only [Run.addDrawingInlineSVG, if_neg hp, if_neg hs]
        exact ⟨_, rfl⟩

/-- Witness for C7: success case at concrete registered handles. -/
theorem C7_reference_error_witness :
    ((∃ e, (exRun.addDrawingInlineSVG exSvgRef exPngRef 3 4).2 = Except.error e) ↔
      (exPngRef.relID = "" ∨ exSvgRef.relID = ""))
    ∧ ((exPngRef.relID = "" ∨ exSvgRef.relID = "") →
        (exRun.addDrawingInlineSVG exSvgRef exPngRef 3 4).1 = exRun)
    ∧ (exPngRef.relID ≠ "" → exSvgRef.relID ≠ "" →
        ∃ ac, (exRun.addDrawingInlineSVG exSvgRef exPngRef 3 4).1.Extra = exRun.Extra ++ [ac]) :=
  C7_reference_error exRun exSvgRef exPngRef 3 4

/-- C9 counterexample: when the two rand.Uint32 draws coincide (both 7),
the call still succeeds and the Choice and Fallback non-visual object
identifiers are equal, so they are not always distinct. -/
theorem C9_counterexample :
    ∃ ac cIn fIn v,
      (exRun.addDrawingInlineSVG exSvgRef exPngRef 7 7).1.Extra = [ac]
      ∧ (exRun.addDrawingInlineSVG exSvgRef exPngRef 7 7).2 = Except.ok v
      ∧ ac.Choice = some { Requires := "asvg", Drawing := [cIn] }
      ∧ ac.Fallback = some { Drawing := some [fIn] }
      ∧ cIn.DocPrIdAttr = fIn.DocPrIdAttr := by
  exact ⟨_, _, _, _, rfl, rfl, rfl, rfl, rfl⟩

/-- C9 (amended): each allocated non-visual object identifier is the low
31 bits of its rand.Uint32 draw (top bit clear, below 2^31); the Choice
and Fallback identifiers are distinct whenever the two masked draws
differ, but the code does not guarantee distinctness for equal draws. -/
theorem C9_docPr_ids (r : Run) (svgImg pngImg : ImageRef) (r₁ r₂ : Nat)
    (hp : pngImg.relID ≠ "") (hs : svgImg.relID ≠ "") :
    ∃ ac cIn fIn,
      (r.addDrawingInlineSVG svgImg pngImg r₁ r₂).1.Extra = r.Extra ++ [ac]
      ∧ ac.Choice = some { Requires := "asvg", Drawing := [cIn] }
      ∧ ac.Fallback = some { Drawing := some [fIn] }
      ∧ cIn.DocPrIdAttr = 0x7FFFFFFF &&& r₁
      ∧ fIn.DocPrIdAttr = 0x7FFFFFFF &&& r₂
      ∧ cIn.pic.NvPrIdAttr = cIn.DocPrIdAttr
      ∧ fIn.pic.NvPrIdAttr = fIn.DocPrIdAttr
      ∧ cIn.DocPrIdAttr < 2 ^ 31
      ∧ fIn.DocPrIdAttr < 2 ^ 31
      ∧ (0x7FFFFFFF &&& r₁ ≠ 0x7FFFFFFF &&& r₂ → cIn.DocPrIdAttr ≠ fIn.DocPrIdAttr) := by
  simp only [Run.addDrawingInlineSVG, if_neg hp, if_neg hs]
  refine ⟨_, _, _, rfl, rfl, rfl, rfl, rfl, rfl, rfl, ?_, ?_, fun h => h⟩
  · exact Nat.lt_of_le_of_lt Nat.and_le_left (by norm_num)
  · exact Nat.lt_of_le_of_lt Nat.and_le_left (by norm_num)

/-- Witness for the amended C9 at concrete handles and distinct draws. -/
theorem C9_docPr_ids_witness :
    ∃ ac cIn fIn,
      (exRun.addDrawingInlineSVG exSvgRef exPngRef 3 4).1.Extra = exRun.Extra ++ [ac]
      ∧ ac.Choice = some { Requires := "asvg", Drawing := [cIn] }
      ∧ ac.Fallback = some { Drawing := some [fIn] }
      ∧ cIn.DocPrIdAttr = 0x7FFFFFFF &&& 3
      ∧ fIn.DocPrIdAttr = 0x7FFFFFFF &&& 4
      ∧ cIn.pic.NvPrIdAttr = cIn.DocPrIdAttr
      ∧ fIn.pic.NvPrIdAttr = fIn.DocPrIdAttr
      ∧ cIn.DocPrIdAttr < 2 ^ 31
      ∧ fIn.DocPrIdAttr < 2 ^ 31
      ∧ (0x7FFFFFFF &&& 3 ≠ 0x7FFFFFFF &&& 4 → cIn.DocPrIdAttr ≠ fIn.DocPrIdAttr) :=
  C9_docPr_ids exRun exSvgRef exPngRef 3 4 (by decide) (by decide)

/-! ### Relationship-set and content-type invariants -/

theorem relIdFor_inj {m n : Nat} (h : relIdFor m = relIdFor n) : m = n := by
  have hd := congrArg String.data h
  simp only [relIdFor, String.data_append] at hd
  have hrepr : Nat.repr (m + 1) = Nat.repr (n + 1) :=
    String.ext (List.append_cancel_left hd)
  have := nat_repr_inj hrepr
  omega

theorem relIdFor_ne_empty (n : Nat) : relIdFor n ≠ "" := by
  intro h
  have hd := congrArg String.data h
  rw [relIdFor, String.data_append] at hd
  have h3 : ("rId").data = [] := (List.append_eq_nil.mp hd).1
  exact absurd h3 (by decide)

/-- The canonical relationship-id list after n allocations. -/
def relIdsUpTo (n : Nat) : List String := (List.range n).map relIdFor

/-- A relationship set is well formed when its ids are exactly the
canonical allocation sequence. -/
def Relationships.wf (r : Relationships) : Prop := r.ids = relIdsUpTo r.ids.length

theorem relIdsUpTo_succ (n : Nat) : relIdsUpTo (n + 1) = relIdsUpTo n ++ [relIdFor n] := by
  simp [relIdsUpTo, List.range_succ]

theorem relIdsUpTo_length (n : Nat) : (relIdsUpTo n).length = n := by
  simp [relIdsUpTo]

theorem relIdsUpTo_nodup (n : Nat) : (relIdsUpTo n).Nodup :=
  List.Nodup.map (fun _ _ h => relIdFor_inj h) (List.nodup_range n)

theorem Relationships.wf_nodup {r : Relationships} (h : r.wf) : r.ids.Nodup := by
  rw [show r.ids = relIdsUpTo r.ids.length from h]
  exact relIdsUpTo_nodup _

theorem relIdsUpTo_append_two (n : Nat) :
    relIdsUpTo n ++ [relIdFor n, relIdFor (n + 1)] = relIdsUpTo (n + 2) := by
  have h2 : relIdsUpTo (n + 2) = (relIdsUpTo n ++ [relIdFor n]) ++ [relIdFor (n + 1)] := by
    rw [relIdsUpTo_succ, relIdsUpTo_succ]
  rw [h2, List.append_assoc]
  rfl

/-- Sequential media-target naming from 0-based position k: every asset at
position i carries target media/image(i+1).(its format). -/
def targetsFrom : Nat → List ImageRef → Prop
  | _, [] => True
  | k, ref :: rest =>
    ref.target = "media/image" ++ Nat.repr (k + 1) ++ "." ++ ref.format
      ∧ targetsFrom (k + 1) rest

/-- Every registered asset's media target is named by its 1-based position
and its format. -/
def Document.targetsWf (d : Document) : Prop := targetsFrom 0 d.images

theorem targetsFrom_append :
    ∀ (l₁ : List ImageRef) (k : Nat) (l₂ : List ImageRef),
      targetsFrom k (l₁ ++ l₂) ↔ targetsFrom k l₁ ∧ targetsFrom (k + l₁.length) l₂ := by
  intro l₁
  induction l₁ with
  | nil => intro k l₂; simp [targetsFrom]
  | cons a t ih =>
    intro k l₂
    show targetsFrom k (a :: (t ++ l₂)) ↔ _
    simp only [targetsFrom]
    rw [ih (k + 1) l₂, List.length_cons, and_assoc]
    have harith : k + 1 + t.length = k + (t.length + 1) := by omega
    rw [harith]

/-- Number of default entries for a format tag. -/
def ContentTypes.countFor (ct : ContentTypes) (ext : String) : Nat :=
  (ct.defaults.filter fun p => p.1 == ext).length

theorem ensureDefault_countFor_self (ct : ContentTypes) (ext mime : String) :
    (ct.ensureDefault ext mime).countFor ext =
      if ct.countFor ext = 0 then 1 else ct.countFor ext := by
  by_cases h : (ct.defaults.any fun p => p.1 == ext) = true
  · have hne : ct.countFor ext ≠ 0 := by
      obtain ⟨p, hmem, hp⟩ := List.any_eq_true.mp h
      have hmf : p ∈ ct.defaults.filter fun q => q.1 == ext :=
        List.mem_filter.mpr ⟨hmem, hp⟩
      have hlen : 0 < (ct.defaults.filter fun q => q.1 == ext).length :=
        List.length_pos.mpr (List.ne_nil_of_mem hmf)
      simp only [ContentTypes.countFor]
      omega
    simp [ContentTypes.ensureDefault, h, hne]
  · have hz : ct.countFor ext = 0 := by
      have hall : ∀ p ∈ ct.defaults, ¬((p.1 == ext) = true) := by
        intro p hp hpe
        exact h (List.any_eq_true.mpr ⟨p, hp, hpe⟩)
      have hnil : (ct.defaults.filter fun q => q.1 == ext) = [] :=
        List.filter_eq_nil_iff.mpr hall
      simp [ContentTypes.countFor, hnil]
    rw [ContentTypes.ensureDefault, if_neg h, if_pos hz]
    simp only [ContentTypes.countFor, List.filter_append] at hz ⊢
    rw [List.length_append]
    simp [hz]

theorem ensureDefault_countFor_other (ct : ContentTypes) (ext mime ext' : String)
    (hne : ext' ≠ ext) :
    (ct.ensureDefault ext mime).countFor ext' = ct.countFor ext' := by
  by_cases h : (ct.defaults.any fun p => p.1 == ext) = true
  · simp [ContentTypes.ensureDefault, h]
  · rw [ContentTypes.ensureDefault, if_neg h]
    simp only [ContentTypes.countFor, List.filter_append, List.length_append]
    have : (([(ext, mime)] : List (String × String)).filter fun q => q.1 == ext') = [] := by
      simp [Ne.symm hne]
    rw [this]
    rfl

/-! ### AddImage / AddImageSVG evaluation lemmas -/

/-- The PNG handle AddImageSVG returns when called on document d. -/
def pngRefOf (d : Document) (width height : Int) : ImageRef :=
  { sizeX := width, sizeY := height, format := "png",
    relID := relIdFor d.rels.ids.length,
    target := "media/image" ++ Nat.repr (d.images.length + 1) ++ "." ++ "png" }

/-- The SVG handle AddImageSVG returns when called on document d. -/
def svgRefOf (d : Document) (width height : Int) : ImageRef :=
  { sizeX := width, sizeY := height, format := "svg",
    relID := relIdFor (d.rels.ids.length + 1),
    target := "media/image" ++ Nat.repr (d.images.length + 2) ++ "." ++ "svg" }

theorem addImage_success (storageOk : String → Bool) (d : Document) (i : Image)
    (hdata : i.data ≠ []) (hx : i.sizeX ≠ 0) (hy : i.sizeY ≠ 0)
    (hf : i.format ≠ "") (hpath : i.path = "") :
    d.addImage storageOk i =
      ({ images := d.images ++
            [{ sizeX := i.sizeX, sizeY := i.sizeY, format := i.format,
               relID := relIdFor d.rels.ids.length,
               target := "media/image" ++ Nat.repr (d.images.length + 1) ++ "." ++ i.format }],
         rels := ⟨d.rels.ids ++ [relIdFor d.rels.ids.length]⟩,
         contentTypes := d.contentTypes.ensureDefault i.format ("image/" ++ i.format) },
       Except.ok
         { sizeX := i.sizeX, sizeY := i.sizeY, format := i.format,
           relID := relIdFor d.rels.ids.length,
           target := "media/image" ++ Nat.repr (d.images.length + 1) ++ "." ++ i.format }) := by
  have hde : i.data.isEmpty = false := by simpa using hdata
  simp only [Document.addImage]
  rw [if_neg (by simp [hde]), if_neg hf, if_neg (by simp [hx, hy]),
    if_neg (by simp [hpath])]
  rfl

theorem addImageSVG_success (storageOk : String → Bool) (d : Document)
    (svgData pngFallback : List Nat) (width height : Int)
    (hsvg : svgData ≠ []) (hpng : pngFallback ≠ []) (hw : 0 < width) (hh : 0 < height) :
    d.addImageSVG storageOk svgData pngFallback width height =
      ({ images := d.images ++ [pngRefOf d width height, svgRefOf d width height],
         rels := ⟨d.rels.ids ++
            [relIdFor d.rels.ids.length, relIdFor (d.rels.ids.length + 1)]⟩,
         contentTypes :=
            (d.contentTypes.ensureDefault "png" "image/png").ensureDefault
              "svg" "image/svg+xml" },
       Except.ok (pngRefOf d width height, svgRefOf d width height)) := by
  have hsvge : svgData.isEmpty = false := by simpa using hsvg
  have hpnge : pngFallback.isEmpty = false := by simpa using hpng
  have hpi := addImage_success storageOk d
    { sizeX := width, sizeY := height, format := "png", data := pngFallback, path := "" }
    hpng (show width ≠ 0 by omega) (show height ≠ 0 by omega)
    (show "png" ≠ "" by decide) rfl
  simp only [Document.addImageSVG]
  rw [if_neg (by simp [hsvge, hpnge]), if_neg (by omega)]
  rw [hpi]
  dsimp only
  rw [if_neg (by simp)]
  simp only [Relationships.addRelationship, List.length_append, List.length_cons,
    List.length_nil]
  rw [List.append_assoc d.images, List.append_assoc d.rels.ids]
  rfl

/-! ### Document-level claims -/

/-- Appending the two freshly allocated ids keeps the relationship set
well formed. -/
theorem relsWf_after_two {r : Relationships} (hwf : r.wf) :
    (⟨r.ids ++ [relIdFor r.ids.length, relIdFor (r.ids.length + 1)]⟩ : Relationships).wf := by
  show r.ids ++ [relIdFor r.ids.length, relIdFor (r.ids.length + 1)]
      = relIdsUpTo (r.ids ++ [relIdFor r.ids.length, relIdFor (r.ids.length + 1)]).length
  rw [show (r.ids ++ [relIdFor r.ids.length, relIdFor (r.ids.length + 1)]).length
      = r.ids.length + 2 by simp]
  rw [← relIdsUpTo_append_two]
  exact congrArg (· ++ [relIdFor r.ids.length, relIdFor (r.ids.length + 1)]) hwf

/-- C5: a successful AddImageSVG call returns a PNG handle and an SVG
handle with non-empty, mutually distinct relationship ids, and keeps the
document's relationship set well formed, so ids stay pairwise distinct
across any sequence of registrations. -/
theorem C5_unique_tokens (storageOk : String → Bool) (d : Document)
    (svgData pngFallback : List Nat) (width height : Int)
    (hsvg : svgData ≠ []) (hpng : pngFallback ≠ []) (hw : 0 < width) (hh : 0 < height)
    (hwf : d.rels.wf) :
    ∃ d' pngRef svgRef,
      d.addImageSVG storageOk svgData pngFallback width height
          = (d', Except.ok (pngRef, svgRef))
      ∧ pngRef.relID ≠ ""
      ∧ svgRef.relID ≠ ""
      ∧ pngRef.relID ≠ svgRef.relID
      ∧ d'.rels.wf
      ∧ d'.rels.ids.Nodup := by
  have hwf' := relsWf_after_two hwf
  refine ⟨_, _, _,
    addImageSVG_success storageOk d svgData pngFallback width height hsvg hpng hw hh,
    relIdFor_ne_empty _, relIdFor_ne_empty _, ?_, hwf', Relationships.wf_nodup hwf'⟩
  intro h
  have := relIdFor_inj h
  omega

/-- The empty document used by witnesses. -/
def emptyDoc : Document := ⟨[], ⟨[]⟩, ⟨[]⟩⟩

/-- Witness for C5 on the empty document. -/
theorem C5_unique_tokens_witness :
    ∃ d' pngRef svgRef,
      emptyDoc.addImageSVG (fun _ => true) [1] [2] 3 4 = (d', Except.ok (pngRef, svgRef))
      ∧ pngRef.relID ≠ ""
      ∧ svgRef.relID ≠ ""
      ∧ pngRef.relID ≠ svgRef.relID
      ∧ d'.rels.wf
      ∧ d'.rels.ids.Nodup :=
  C5_unique_tokens (fun _ => true) emptyDoc [1] [2] 3 4
    (by decide) (by decide) (by decide) (by decide) rfl

/-- C6: AddImageSVG fails exactly when the SVG bytes are empty, the PNG
bytes are empty, or a dimension is not positive; every error return
leaves the document (asset list, relationship set, content-type table)
unchanged. -/
theorem C6_validation (storageOk : String → Bool) (d : Document)
    (svgData pngFallback : List Nat) (width height : Int) :
    ((∃ e, (d.addImageSVG storageOk svgData pngFallback width height).2 = Except.error e) ↔
      (svgData = [] ∨ pngFallback = [] ∨ width ≤ 0 ∨ height ≤ 0))
    ∧ (∀ e, (d.addImageSVG storageOk svgData pngFallback width height).2 = Except.error e →
        (d.addImageSVG storageOk svgData pngFallback width height).1 = d) := by
  by_cases h1 : svgData.isEmpty ∨ pngFallback.isEmpty
  · have hout : d.addImageSVG storageOk svgData pngFallback width height
        = (d, Except.error "both SVG and PNG data are required") := by
      simp only [Document.addImageSVG]
      rw [if_pos h1]
    rw [hout]
    refine ⟨⟨fun _ => ?_, fun _ => ⟨_, rfl⟩⟩, fun e _ => rfl⟩
    rcases h1 with h | h
    · exact Or.inl (List.isEmpty_iff.mp h)
    · exact Or.inr (Or.inl (List.isEmpty_iff.mp h))
  · by_cases h2 : width ≤ 0 ∨ height ≤ 0
    · have hout : d.addImageSVG storageOk svgData pngFallback width height
          = (d, Except.error "width and height must be positive") := by
        simp only [Document.addImageSVG]
        rw [if_neg h1, if_pos h2]
      rw [hout]
      refine ⟨⟨fun _ => ?_, fun _ => ⟨_, rfl⟩⟩, fun e _ => rfl⟩
      tauto
    · have hsvg : svgData ≠ [] := by
        intro h; exact h1 (Or.inl (by simp [h]))
      have hpng : pngFallback ≠ [] := by
        intro h; exact h1 (Or.inr (by simp [h]))
      push_neg at h2
      have hw : 0 < width := by omega
      have hh : 0 < height := by omega
      rw [addImageSVG_success storageOk d svgData pngFallback width height hsvg hpng hw hh]
      refine ⟨⟨?_, fun hcontra => ?_⟩, fun e he => ?_⟩
      · rintro ⟨e, he⟩
        simp at he
      · exfalso
        rcases hcontra with h | h | h | h
        · exact hsvg h
        · exact hpng h
        · omega
        · omega
      · simp at he

/-- Witness for C6: error case (empty SVG bytes, document untouched) at a
concrete input. -/
theorem C6_validation_witness :
    ((∃ e, (emptyDoc.addImageSVG (fun _ => true) [] [2] 3 4).2 = Except.error e) ↔
      (([] : List Nat) = [] ∨ [2] = ([] : List Nat) ∨ (3 : Int) ≤ 0 ∨ (4 : Int) ≤ 0))
    ∧ (∀ e, (emptyDoc.addImageSVG (fun _ => true) [] [2] 3 4).2 = Except.error e →
        (emptyDoc.addImageSVG (fun _ => true) [] [2] 3 4).1 = emptyDoc) :=
  C6_validation (fun _ => true) emptyDoc [] [2] 3 4

/-- One valid AddImageSVG call appends two assets and two relationship
ids, keeps the relationship set and target naming well formed, and drives
each of the png and svg content-type counts to one (idempotently). -/
theorem addImageSVG_step (storageOk : String → Bool) (d : Document)
    (svgData pngFallback : List Nat) (width height : Int)
    (hsvg : svgData ≠ []) (hpng : pngFallback ≠ []) (hw : 0 < width) (hh : 0 < height) :
    (d.addImageSVG storageOk svgData pngFallback width height).1.images.length
        = d.images.length + 2
    ∧ (d.addImageSVG storageOk svgData pngFallback width height).1.rels.ids.length
        = d.rels.ids.length + 2
    ∧ (d.rels.wf → (d.addImageSVG storageOk svgData pngFallback width height).1.rels.wf)
    ∧ (d.targetsWf → (d.addImageSVG storageOk svgData pngFallback width height).1.targetsWf)
    ∧ (d.addImageSVG storageOk svgData pngFallback width height).1.contentTypes.countFor "png"
        = (if d.contentTypes.countFor "png" = 0 then 1 else d.contentTypes.countFor "png")
    ∧ (d.addImageSVG storageOk svgData pngFallback width height).1.contentTypes.countFor "svg"
        = (if d.contentTypes.countFor "svg" = 0 then 1 else d.contentTypes.countFor "svg") := by
  rw [addImageSVG_success storageOk d svgData pngFallback width height hsvg hpng hw hh]
  dsimp only
  refine ⟨by simp, by simp, fun hwf => relsWf_after_two hwf, fun htw => ?_, ?_, ?_⟩
  · unfold Document.targetsWf at htw ⊢
    rw [targetsFrom_append]
    refine ⟨htw, ?_⟩
    simp [targetsFrom, pngRefOf, svgRefOf, Nat.zero_add]
  · rw [ensureDefault_countFor_other _ _ _ _ (by decide), ensureDefault_countFor_self]
  · rw [ensureDefault_countFor_self, ensureDefault_countFor_other _ _ _ _ (by decide)]

/-- N repeated AddImageSVG calls with the same arguments. -/
def addImageSVGIter (storageOk : String → Bool) (svgData pngFallback : List Nat)
    (width height : Int) : Nat → Document → Document
  | 0, d => d
  | n + 1, d =>
    addImageSVGIter storageOk svgData pngFallback width height n
      (d.addImageSVG storageOk svgData pngFallback width height).1

/-- Iterating valid registrations from a document whose png and svg
content-type counts are already one preserves all the invariants. -/
theorem addImageSVGIter_keep (storageOk : String → Bool)
    (svgData pngFallback : List Nat) (width height : Int)
    (hsvg : svgData ≠ []) (hpng : pngFallback ≠ []) (hw : 0 < width) (hh : 0 < height) :
    ∀ (N : Nat) (d : Document), d.rels.wf → d.targetsWf →
      d.contentTypes.countFor "png" = 1 → d.contentTypes.countFor "svg" = 1 →
      (addImageSVGIter storageOk svgData pngFallback width height N d).images.length
          = d.images.length + 2 * N
      ∧ (addImageSVGIter storageOk svgData pngFallback width height N d).rels.ids.length
          = d.rels.ids.length + 2 * N
      ∧ (addImageSVGIter storageOk svgData pngFallback width height N d).rels.wf
      ∧ (addImageSVGIter storageOk svgData pngFallback width height N d).targetsWf
      ∧ (addImageSVGIter storageOk svgData pngFallback width height N d).contentTypes.countFor
          "png" = 1
      ∧ (addImageSVGIter storageOk svgData pngFallback width height N d).contentTypes.countFor
          "svg" = 1 := by
  intro N
  induction N with
  | zero =>
    intro d hwf htw hcp hcs
    exact ⟨rfl, rfl, hwf, htw, hcp, hcs⟩
  | succ n ih =>
    intro d hwf htw hcp hcs
    obtain ⟨h1, h2, h3, h4, h5, h6⟩ :=
      addImageSVG_step storageOk d svgData pngFallback width height hsvg hpng hw hh
    have hstep : addImageSVGIter storageOk svgData pngFallback width height (n + 1) d
        = addImageSVGIter storageOk svgData pngFallback width height n
            (d.addImageSVG storageOk svgData pngFallback width height).1 := rfl
    rw [hstep]
    obtain ⟨g1, g2, g3, g4, g5, g6⟩ :=
      ih (d.addImageSVG storageOk svgData pngFallback width height).1
        (h3 hwf) (h4 htw) (by rw [h5, hcp]; rfl) (by rw [h6, hcs]; rfl)
    exact ⟨by omega, by omega, g3, g4, g5, g6⟩

/-- C8: for N ≥ 1 valid calls on one document, 2N assets and 2N pairwise
distinct relationship ids are appended, targets stay sequentially named
by position and format, and the content-type table ends with exactly one
png default and one svg default. -/
theorem C8_repeat_registration (storageOk : String → Bool) (d : Document)
    (svgData pngFallback : List Nat) (width height : Int) (N : Nat)
    (hsvg : svgData ≠ []) (hpng : pngFallback ≠ []) (hw : 0 < width) (hh : 0 < height)
    (hwf : d.rels.wf) (htw : d.targetsWf)
    (hcp : d.contentTypes.countFor "png" = 0) (hcs : d.contentTypes.countFor "svg" = 0)
    (hN : 1 ≤ N) :
    (addImageSVGIter storageOk svgData pngFallback width height N d).images.length
        = d.images.length + 2 * N
    ∧ (addImageSVGIter storageOk svgData pngFallback width height N d).rels.ids.length
        = d.rels.ids.length + 2 * N
    ∧ (addImageSVGIter storageOk svgData pngFallback width height N d).rels.ids.Nodup
    ∧ (addImageSVGIter storageOk svgData pngFallback width height N d).targetsWf
    ∧ (addImageSVGIter storageOk svgData pngFallback width height N d).contentTypes.countFor
        "png" = 1
    ∧ (addImageSVGIter storageOk svgData pngFallback width height N d).contentTypes.countFor
        "svg" = 1 := by
  obtain ⟨n, rfl⟩ : ∃ n, N = n + 1 := ⟨N - 1, by omega⟩
  obtain ⟨h1, h2, h3, h4, h5, h6⟩ :=
    addImageSVG_step storageOk d svgData pngFallback width height hsvg hpng hw hh
  have hstep : addImageSVGIter storageOk svgData pngFallback width height (n + 1) d
      = addImageSVGIter storageOk svgData pngFallback width height n
          (d.addImageSVG storageOk svgData pngFallback width height).1 := rfl
  rw [hstep]
  obtain ⟨g1, g2, g3, g4, g5, g6⟩ :=
    addImageSVGIter_keep storageOk svgData pngFallback width height hsvg hpng hw hh n
      (d.addImageSVG storageOk svgData pngFallback width height).1
      (h3 hwf) (h4 htw) (by rw [h5, hcp]; rfl) (by rw [h6, hcs]; rfl)
  exact ⟨by omega, by omega, Relationships.wf_nodup g3, g4, g5, g6⟩

/-- Witness for C8: two rounds of registration on the empty document. -/
theorem C8_repeat_registration_witness :
    (addImageSVGIter (fun _ => true) [1] [2] 3 4 2 emptyDoc).images.length
        = emptyDoc.images.length + 2 * 2
    ∧ (addImageSVGIter (fun _ => true) [1] [2] 3 4 2 emptyDoc).rels.ids.length
        = emptyDoc.rels.ids.length + 2 * 2
    ∧ (addImageSVGIter (fun _ => true) [1] [2] 3 4 2 emptyDoc).rels.ids.Nodup
    ∧ (addImageSVGIter (fun _ => true) [1] [2] 3 4 2 emptyDoc).targetsWf
    ∧ (addImageSVGIter (fun _ => true) [1] [2] 3 4 2 emptyDoc).contentTypes.countFor "png" = 1
    ∧ (addImageSVGIter (fun _ => true) [1] [2] 3 4 2 emptyDoc).contentTypes.countFor "svg" = 1 :=
  C8_repeat_registration (fun _ => true) emptyDoc [1] [2] 3 4 2
    (by decide) (by decide) (by decide) (by decide) rfl trivial rfl rfl (by decide)
